import Mathlib

/-!
Verification of json-api/app/main.go, an in-memory user collection behind one
HTTP route.

A shallow embedding of `main.go`.  The global slice `users` is threaded through
the handlers as an explicit state; a handler maps the store and a request to a
response and the store afterwards.

The handlers call three pieces of the Go standard library, which are modelled
here from their documented behaviour:

* `json.Unmarshal` into `CreateUserRequest`: the body is first checked to be
  one well-formed JSON text (RFC 8259 grammar, nesting depth at most 10000),
  then decoded into the struct (keys matched case-insensitively, a string
  value stored, `null` leaving the field alone, any other value a type error);
* `http.Error`: status code, plain-text content type, the message and a newline;
* `json.NewEncoder(w).Encode(v)`: the response body is the JSON value of `v`.

Modelling choices: request bodies and Go strings are sequences of Unicode code
points (a body that is not well-formed UTF-8 is outside the model); `len(users) + 1`
is a natural number (a slice cannot hold `2^63` records).
-/

namespace JsonApi

/-! JSON values and the JSON grammar -/

/-- A JSON value.  A number keeps its literal text. -/
inductive JSON where
  | null
  | bool (b : Bool)
  | number (lit : String)
  | string (s : String)
  | array (elems : List JSON)
  | object (members : List (String × JSON))

/-- Outcome of scanning a prefix of the input: a value and the unread input, a
grammar violation, or exhaustion of the recursion budget. -/
inductive Scan (α : Type) where
  | ok (v : α) (rest : List Char)
  | malformed
  | outOfFuel

/-- Maps the value of a successful scan. -/
def Scan.map {α β : Type} (f : α → β) : Scan α → Scan β
  | .ok v rest => .ok (f v) rest
  | .malformed => .malformed
  | .outOfFuel => .outOfFuel

/-- Lifts an optional scan result, `none` being a grammar violation. -/
def Scan.ofOption {α : Type} : Option (α × List Char) → Scan α
  | some (v, rest) => .ok v rest
  | none => .malformed

/-- JSON whitespace: space, tab, carriage return, line feed. -/
def isSpace (c : Char) : Bool :=
  c.toNat == 32 || c.toNat == 9 || c.toNat == 13 || c.toNat == 10

/-- Drops leading JSON whitespace. -/
def skipSpace : List Char → List Char
  | [] => []
  | c :: cs => if isSpace c then skipSpace cs else c :: cs

/-- Decimal digit `0`..`9`. -/
def isDigit (c : Char) : Bool :=
  decide (48 ≤ c.toNat) && decide (c.toNat ≤ 57)

/-- Splits off the longest prefix of decimal digits. -/
def takeDigits : List Char → List Char × List Char
  | [] => ([], [])
  | c :: cs => if isDigit c then ((c :: (takeDigits cs).1), (takeDigits cs).2) else ([], c :: cs)

/-- Integer part of a number: `0`, or a non-zero digit followed by digits. -/
def scanInt : List Char → Option (List Char × List Char)
  | [] => none
  | c :: cs =>
    if c.toNat = 48 then some ([c], cs)
    else if isDigit c then some (c :: (takeDigits cs).1, (takeDigits cs).2)
    else none

/-- Optional fraction: a dot followed by at least one digit. -/
def scanFrac : List Char → Option (List Char × List Char)
  | [] => some ([], [])
  | c :: cs =>
    if c.toNat = 46 then
      match takeDigits cs with
      | ([], _) => none
      | (d :: ds, rest) => some (c :: d :: ds, rest)
    else some ([], c :: cs)

/-- Digits of an exponent after `e` and the optional sign: at least one. -/
def scanExpDigits (cs : List Char) : Option (List Char × List Char) :=
  match takeDigits cs with
  | ([], _) => none
  | (d :: ds, rest) => some (d :: ds, rest)

/-- Optional exponent: `e` or `E`, an optional sign, at least one digit. -/
def scanExp : List Char → Option (List Char × List Char)
  | [] => some ([], [])
  | c :: cs =>
    if c.toNat = 101 ∨ c.toNat = 69 then
      match cs with
      | [] => none
      | s :: cs1 =>
        if s.toNat = 43 ∨ s.toNat = 45 then
          (scanExpDigits cs1).map (fun p => (c :: s :: p.1, p.2))
        else (scanExpDigits (s :: cs1)).map (fun p => (c :: p.1, p.2))
    else some ([], c :: cs)

/-- Number without its sign: integer part, optional fraction, optional exponent. -/
def scanUnsigned (cs : List Char) : Option (List Char × List Char) :=
  match scanInt cs with
  | none => none
  | some (i, r1) =>
    match scanFrac r1 with
    | none => none
    | some (f, r2) =>
      match scanExp r2 with
      | none => none
      | some (e, r3) => some (i ++ f ++ e, r3)

/-- A JSON number literal at the head of the input. -/
def scanNumber : List Char → Option (List Char × List Char)
  | [] => none
  | c :: cs =>
    if c.toNat = 45 then (scanUnsigned cs).map (fun p => (c :: p.1, p.2))
    else scanUnsigned (c :: cs)

/-- One unit of a string literal: a literal character or the 16-bit value of a
`\uXXXX` escape. -/
inductive StrUnit where
  | lit (c : Char)
  | esc (n : Nat)

/-- Value of a hexadecimal digit, either case. -/
def hexVal (c : Char) : Option Nat :=
  if 48 ≤ c.toNat ∧ c.toNat ≤ 57 then some (c.toNat - 48)
  else if 97 ≤ c.toNat ∧ c.toNat ≤ 102 then some (c.toNat - 87)
  else if 65 ≤ c.toNat ∧ c.toNat ≤ 70 then some (c.toNat - 55)
  else none

/-- Value of four hexadecimal digits. -/
def hex4 (a b c d : Char) : Option Nat :=
  match hexVal a, hexVal b, hexVal c, hexVal d with
  | some x, some y, some z, some w => some (((x * 16 + y) * 16 + z) * 16 + w)
  | _, _, _, _ => none

/-- Character named by a one-letter escape (the letter after the backslash). -/
def unescape (e : Char) : Option Char :=
  if e.toNat = 34 then some (Char.ofNat 34)
  else if e.toNat = 92 then some (Char.ofNat 92)
  else if e.toNat = 47 then some (Char.ofNat 47)
  else if e.toNat = 98 then some (Char.ofNat 8)
  else if e.toNat = 102 then some (Char.ofNat 12)
  else if e.toNat = 110 then some (Char.ofNat 10)
  else if e.toNat = 114 then some (Char.ofNat 13)
  else if e.toNat = 116 then some (Char.ofNat 9)
  else none

/-- Puts a unit in front of a scanned string tail. -/
def consUnit (u : StrUnit) (r : Option (List StrUnit × List Char)) :
    Option (List StrUnit × List Char) :=
  r.map (fun p => (u :: p.1, p.2))

/-- Scans a string literal after its opening quote, up to and including the
closing quote.  Control characters below U+0020 are rejected, a backslash must
start a valid escape. -/
def scanString : List Char → Option (List StrUnit × List Char)
  | [] => none
  | c :: cs =>
    if c.toNat = 34 then some ([], cs)
    else if c.toNat = 92 then
      match cs with
      | [] => none
      | e :: cs1 =>
        if e.toNat = 117 then
          match cs1 with
          | a :: b :: c2 :: d :: cs2 =>
            match hex4 a b c2 d with
            | some n => consUnit (.esc n) (scanString cs2)
            | none => none
          | _ => none
        else
          match unescape e with
          | some ch => consUnit (.lit ch) (scanString cs1)
          | none => none
    else if c.toNat < 32 then none
    else consUnit (.lit c) (scanString cs)

/-- High (leading) UTF-16 surrogate. -/
def isHighSurrogate (n : Nat) : Bool := decide (0xD800 ≤ n) && decide (n < 0xDC00)

/-- Low (trailing) UTF-16 surrogate. -/
def isLowSurrogate (n : Nat) : Bool := decide (0xDC00 ≤ n) && decide (n < 0xE000)

/-- Character of a `\uXXXX` escape standing alone: a surrogate becomes U+FFFD. -/
def escChar (n : Nat) : Char :=
  if isHighSurrogate n || isLowSurrogate n then Char.ofNat 0xFFFD else Char.ofNat n

/-- Character of a valid surrogate pair. -/
def pairChar (hi lo : Nat) : Char :=
  Char.ofNat (0x10000 + (hi - 0xD800) * 0x400 + (lo - 0xDC00))

/-- Turns the units of a string literal into its characters.  `pending` is a
high surrogate escape read just before: directly followed by a low surrogate
escape the two are one character, otherwise it becomes U+FFFD. -/
def decodeFrom : Option Nat → List StrUnit → List Char
  | none, [] => []
  | some _, [] => [Char.ofNat 0xFFFD]
  | none, .lit c :: us => c :: decodeFrom none us
  | some _, .lit c :: us => Char.ofNat 0xFFFD :: c :: decodeFrom none us
  | none, .esc n :: us =>
    if isHighSurrogate n then decodeFrom (some n) us else escChar n :: decodeFrom none us
  | some hi, .esc n :: us =>
    if isLowSurrogate n then pairChar hi n :: decodeFrom none us
    else if isHighSurrogate n then Char.ofNat 0xFFFD :: decodeFrom (some n) us
    else Char.ofNat 0xFFFD :: escChar n :: decodeFrom none us

/-- Characters of a string literal given by its units. -/
def decodeUnits (us : List StrUnit) : List Char := decodeFrom none us

/-- A string literal after its opening quote, unquoted. -/
def scanQuoted (cs : List Char) : Option (String × List Char) :=
  (scanString cs).map (fun p => (String.mk (decodeUnits p.1), p.2))

/-- Strips the given characters from the head of the input. -/
def expect : List Char → List Char → Option (List Char)
  | [], cs => some cs
  | _ :: _, [] => none
  | p :: ps, c :: cs => if p = c then expect ps cs else none

/-- Deepest nesting of arrays and objects the decoder accepts. -/
def maxNestingDepth : Nat := 10000

/-- Elements of a non-empty array after `[`, up to and including `]`; `pv`
scans one value. -/
def parseElements (pv : List Char → Scan JSON) : Nat → List Char → Scan (List JSON)
  | 0, _ => .outOfFuel
  | k + 1, cs =>
    match pv (skipSpace cs) with
    | .ok v rest =>
      match skipSpace rest with
      | [] => .malformed
      | c :: rest1 =>
        if c.toNat = 44 then (parseElements pv k rest1).map (fun vs => v :: vs)
        else if c.toNat = 93 then .ok [v] rest1
        else .malformed
    | .malformed => .malformed
    | .outOfFuel => .outOfFuel

/-- Members of a non-empty object after `{`, up to and including `}`; `pv`
scans one value. -/
def parseMembers (pv : List Char → Scan JSON) : Nat → List Char → Scan (List (String × JSON))
  | 0, _ => .outOfFuel
  | k + 1, cs =>
    match skipSpace cs with
    | [] => .malformed
    | q :: cs1 =>
      if q.toNat = 34 then
        match scanQuoted cs1 with
        | none => .malformed
        | some (key, cs2) =>
          match skipSpace cs2 with
          | [] => .malformed
          | colon :: cs3 =>
            if colon.toNat = 58 then
              match pv (skipSpace cs3) with
              | .ok v rest =>
                match skipSpace rest with
                | [] => .malformed
                | c :: rest1 =>
                  if c.toNat = 44 then (parseMembers pv k rest1).map (fun ms => (key, v) :: ms)
                  else if c.toNat = 125 then .ok [(key, v)] rest1
                  else .malformed
              | .malformed => .malformed
              | .outOfFuel => .outOfFuel
            else .malformed
      else .malformed

/-- Whether the input, after whitespace, starts with the given character code. -/
def startsWithCode (n : Nat) (cs : List Char) : Bool :=
  match skipSpace cs with
  | [] => false
  | c :: _ => c.toNat == n

/-- Input after whitespace and one further character. -/
def dropOne (cs : List Char) : List Char := (skipSpace cs).tail

/-- One JSON value at the head of the input (no leading whitespace), at the
given nesting depth. -/
def parseValue : Nat → Nat → List Char → Scan JSON
  | 0, _, _ => .outOfFuel
  | _ + 1, _, [] => .malformed
  | n + 1, depth, c :: cs =>
    if c.toNat = 123 then
      if maxNestingDepth < depth + 1 then .malformed
      else if startsWithCode 125 cs then .ok (.object []) (dropOne cs)
      else (parseMembers (parseValue n (depth + 1)) n cs).map JSON.object
    else if c.toNat = 91 then
      if maxNestingDepth < depth + 1 then .malformed
      else if startsWithCode 93 cs then .ok (.array []) (dropOne cs)
      else (parseElements (parseValue n (depth + 1)) n cs).map JSON.array
    else if c.toNat = 34 then
      Scan.ofOption ((scanQuoted cs).map (fun p => (JSON.string p.1, p.2)))
    else if c.toNat = 116 then
      Scan.ofOption ((expect "rue".toList cs).map (fun r => (JSON.bool true, r)))
    else if c.toNat = 102 then
      Scan.ofOption ((expect "alse".toList cs).map (fun r => (JSON.bool false, r)))
    else if c.toNat = 110 then
      Scan.ofOption ((expect "ull".toList cs).map (fun r => (JSON.null, r)))
    else
      Scan.ofOption ((scanNumber (c :: cs)).map (fun p => (JSON.number (String.mk p.1), p.2)))

/-- Scans the whole body: whitespace, one value, whitespace, end of input. -/
def scanBody (body : String) : Scan JSON :=
  match parseValue ((skipSpace body.toList).length + 1) 0 (skipSpace body.toList) with
  | .ok v rest => if skipSpace rest = [] then .ok v [] else .malformed
  | .malformed => .malformed
  | .outOfFuel => .outOfFuel

/-- The JSON value a body denotes, `none` when the body is not one well-formed
JSON text. -/
def parseJSON (body : String) : Option JSON :=
  match scanBody body with
  | .ok v _ => some v
  | _ => none

/-! The data model of `main.go` -/

/-- User struct to represent user data. -/
structure User where
  ID : Nat
  Name : String
  Email : String
  deriving DecidableEq, Repr

/-- CreateUserRequest struct for incoming user creation request. -/
structure CreateUserRequest where
  Name : String
  Email : String
  deriving DecidableEq, Repr

/-- Global slice to simulate a simple in-memory database: its initial value. -/
def users : List User :=
  [ { ID := 1, Name := "John Doe", Email := "john@example.com" },
    { ID := 2, Name := "Jane Smith", Email := "jane@example.com" } ]

/-- What a handler reads of `*http.Request`: the method, and the outcome of
`io.ReadAll(r.Body)`, `none` when reading the body fails. -/
structure Request where
  Method : String
  Body : Option String

/-- Payload written to the `http.ResponseWriter`: plain text, or the JSON
encoding of a value. -/
inductive Payload where
  | text (s : String)
  | json (v : JSON)

/-- What a handler writes to the `http.ResponseWriter`. -/
structure Response where
  status : Nat
  contentType : String
  body : Payload

/-- Go's `http.Error`: the status code, a plain-text content type, and the
message followed by a newline. -/
def http_Error (error : String) (code : Nat) : Response :=
  { status := code, contentType := "text/plain; charset=utf-8", body := .text (error ++ "\n") }

/-- JSON encoding of a `User`, by its struct tags `id`, `name`, `email`. -/
def User.toJSON (u : User) : JSON :=
  .object [("id", .number (Nat.repr u.ID)), ("name", .string u.Name), ("email", .string u.Email)]

/-! `json.Unmarshal` into `CreateUserRequest` -/

/-- Why `json.Unmarshal` fails: the text is not JSON (`*json.SyntaxError`), or a
JSON value does not fit the Go type (`*json.UnmarshalTypeError`). -/
inductive UnmarshalError where
  | malformed
  | typeMismatch
  deriving DecidableEq, Repr

/-- ASCII upper-casing of the character with the given code. -/
def foldCode (n : Nat) : Nat := if 97 ≤ n ∧ n ≤ 122 then n - 32 else n

/-- Case-insensitive comparison of an object key with a field name (both
field names are made of ASCII letters without case-folding partners outside
ASCII). -/
def equalFold (key name : String) : Bool :=
  key.toList.map (fun c => foldCode c.toNat) == name.toList.map (fun c => foldCode c.toNat)

/-- Stores a JSON value into a Go `string` field: a string is stored, `null`
has no effect, anything else has no effect and is a type error. -/
def storeString (old : String) : JSON → String × Bool
  | .string s => (s, false)
  | .null => (old, false)
  | _ => (old, true)

/-- Decodes one object member into the struct; the flag records a saved type
error.  A key matching no field is skipped. -/
def decodeMember (st : CreateUserRequest × Bool) (m : String × JSON) : CreateUserRequest × Bool :=
  if equalFold m.1 "name" then
    ({ st.1 with Name := (storeString st.1.Name m.2).1 }, st.2 || (storeString st.1.Name m.2).2)
  else if equalFold m.1 "email" then
    ({ st.1 with Email := (storeString st.1.Email m.2).1 }, st.2 || (storeString st.1.Email m.2).2)
  else st

/-- Decodes a JSON value into the struct `v`: `null` has no effect, an object
is decoded member by member in order, any other value is a type error. -/
def decodeValue (v : CreateUserRequest) : JSON → Except UnmarshalError CreateUserRequest
  | .null => .ok v
  | .object ms =>
    if (ms.foldl decodeMember (v, false)).2 then .error .typeMismatch
    else .ok (ms.foldl decodeMember (v, false)).1
  | _ => .error .typeMismatch

/-- Go's `json.Unmarshal(data, &v)` for `v` of type `CreateUserRequest`. -/
def json_Unmarshal (data : String) (v : CreateUserRequest) :
    Except UnmarshalError CreateUserRequest :=
  match parseJSON data with
  | none => .error .malformed
  | some j => decodeValue v j

/-! The handlers -/

/-- Handler for creating a new user. -/
def createUserHandler (users : List User) (r : Request) : Response × List User :=
  if r.Method ≠ "POST" then (http_Error "Method not allowed" 405, users)
  else
    match r.Body with
    | none => (http_Error "Error reading request body" 400, users)
    | some body =>
      match json_Unmarshal body { Name := "", Email := "" } with
      | .error _ => (http_Error "Error parsing JSON" 400, users)
      | .ok newUserReq =>
        ({ status := 201, contentType := "application/json",
           body := .json (User.toJSON
             { ID := users.length + 1, Name := newUserReq.Name, Email := newUserReq.Email }) },
         users ++ [{ ID := users.length + 1, Name := newUserReq.Name, Email := newUserReq.Email }])

/-- Handler for getting all users. -/
def getUsersHandler (users : List User) (r : Request) : Response × List User :=
  if r.Method ≠ "GET" then (http_Error "Method not allowed" 405, users)
  else
    ({ status := 200, contentType := "application/json",
       body := .json (.array (users.map User.toJSON)) }, users)

/-- The function registered in `main` for the route `/users`. -/
def usersRoute (users : List User) (r : Request) : Response × List User :=
  if r.Method = "GET" then getUsersHandler users r
  else if r.Method = "POST" then createUserHandler users r
  else (http_Error "Method not allowed" 405, users)

/-- The store after serving a sequence of requests one after the other. -/
def serve (s : List User) (reqs : List Request) : List User :=
  reqs.foldl (fun st r => (usersRoute st r).2) s

/-! Predicates used in the statements -/

/-- A scan result that is not out of fuel and leaves fewer than `n` characters. -/
def Scan.Consumes {α : Type} : Scan α → Nat → Prop
  | .ok _ rest, n => rest.length < n
  | .malformed, _ => True
  | .outOfFuel, _ => False

/-- A value a Go `string` field takes without a type error: a string or `null`. -/
def isStringOrNull : JSON → Bool
  | .string _ => true
  | .null => true
  | _ => false

/-- A member that raises no type error: its key names neither field, or its
value is a string or `null`. -/
def memberAccepted (m : String × JSON) : Bool :=
  !(equalFold m.1 "name" || equalFold m.1 "email") || isStringOrNull m.2

/-- The JSON values `CreateUserRequest` decodes from without a type error:
`null`, or an object all of whose members are accepted. -/
def acceptedShape : JSON → Bool
  | .null => true
  | .object ms => ms.all memberAccepted
  | _ => false

/-- A POST request with the given body. -/
def post (body : String) : Request := { Method := "POST", Body := some body }

/-- The text of an object whose one member, of a key naming no field, opens
10000 arrays, followed by `cs`. -/
def deepBody (cs : List Char) : String :=
  String.mk (Char.ofNat 123 :: Char.ofNat 34 :: Char.ofNat 120 :: Char.ofNat 34 ::
    Char.ofNat 58 :: (List.replicate (9999 + 1) (Char.ofNat 91) ++ cs))

/-! The recursion budget of the scanner is sufficient -/

theorem Scan.Consumes.mono {α : Type} {r : Scan α} {n m : Nat} (h : r.Consumes n) (hnm : n ≤ m) :
    r.Consumes m := by
  cases r with
  | ok v rest => exact Nat.lt_of_lt_of_le h hnm
  | malformed => trivial
  | outOfFuel => exact h

theorem Scan.Consumes.map {α β : Type} {r : Scan α} {n : Nat} (f : α → β) (h : r.Consumes n) :
    (r.map f).Consumes n := by
  cases r with
  | ok v rest => exact h
  | malformed => trivial
  | outOfFuel => exact h

theorem Scan.consumes_ofOption {α : Type} {o : Option (α × List Char)} {n : Nat}
    (h : ∀ p, o = some p → p.2.length < n) : (Scan.ofOption o).Consumes n := by
  cases o with
  | none => trivial
  | some p => exact h p rfl

theorem skipSpace_length_le (cs : List Char) : (skipSpace cs).length ≤ cs.length := by
  induction cs with
  | nil => simp [skipSpace]
  | cons c cs ih =>
    unfold skipSpace
    split
    · simp; omega
    · simp

theorem takeDigits_length_le (cs : List Char) : (takeDigits cs).2.length ≤ cs.length := by
  induction cs with
  | nil => simp [takeDigits]
  | cons c cs ih =>
    unfold takeDigits
    split
    · simp; omega
    · simp

theorem consUnit_eq_some {u : StrUnit} {r : Option (List StrUnit × List Char)}
    {us : List StrUnit} {rest : List Char} (h : consUnit u r = some (us, rest)) :
    ∃ us1, r = some (us1, rest) := by
  cases r with
  | none => simp [consUnit] at h
  | some p =>
    obtain ⟨p1, p2⟩ := p
    simp [consUnit] at h
    exact ⟨p1, by rw [h.2]⟩

theorem scanString_length_lt (cs : List Char) :
    ∀ us rest, scanString cs = some (us, rest) → rest.length < cs.length := by
  induction cs using scanString.induct with
  | case1 => intro us rest h; simp [scanString] at h
  | case2 c cs hc =>
    intro us rest h
    rw [scanString.eq_def] at h
    simp [hc] at h
    simp [← h.2]
  | case3 c hc hc2 => intro us rest h; rw [scanString.eq_def] at h; simp [hc, hc2] at h
  | case4 c hc hc2 e he a b c2 d cs2 n hn ih =>
    intro us rest h
    rw [scanString.eq_def] at h
    simp only [hc, hc2, he, hn, if_true, if_false] at h
    obtain ⟨us1, h1⟩ := consUnit_eq_some h
    have := ih us1 rest h1
    simp only [List.length_cons]; omega
  | case5 c hc hc2 e he a b c2 d cs2 hn =>
    intro us rest h
    rw [scanString.eq_def] at h
    simp [hc, hc2, he, hn] at h
  | case6 c hc hc2 e cs he hcs =>
    intro us rest h
    rw [scanString.eq_def] at h
    simp only [hc, hc2, he, if_true, if_false] at h
    rcases cs with _ | ⟨a, _ | ⟨b, _ | ⟨c2, _ | ⟨d, cs2⟩⟩⟩⟩
    · simp at h
    · simp at h
    · simp at h
    · simp at h
    · exact absurd rfl (hcs a b c2 d cs2)
  | case7 c hc hc2 e cs he ch hch ih =>
    intro us rest h
    rw [scanString.eq_def] at h
    simp only [hc, hc2, he, hch, if_true, if_false] at h
    obtain ⟨us1, h1⟩ := consUnit_eq_some h
    have := ih us1 rest h1
    simp only [List.length_cons]; omega
  | case8 c hc hc2 e cs he hch =>
    intro us rest h
    rw [scanString.eq_def] at h
    simp [hc, hc2, he, hch] at h
  | case9 c cs hc hc2 hlt =>
    intro us rest h
    rw [scanString.eq_def] at h
    simp [hc, hc2, hlt] at h
  | case10 c cs hc hc2 hlt ih =>
    intro us rest h
    rw [scanString.eq_def] at h
    simp only [hc, hc2, hlt, if_true, if_false] at h
    obtain ⟨us1, h1⟩ := consUnit_eq_some h
    have := ih us1 rest h1
    simp only [List.length_cons]; omega

theorem scanQuoted_length_lt {cs : List Char} {p : String × List Char}
    (h : scanQuoted cs = some p) : p.2.length < cs.length := by
  unfold scanQuoted at h
  cases hs : scanString cs with
  | none => simp [hs] at h
  | some q =>
    obtain ⟨us, rest⟩ := q
    simp [hs] at h
    rw [← h]
    exact scanString_length_lt cs us rest hs

theorem expect_length_le (ps : List Char) : ∀ (cs rest : List Char),
    expect ps cs = some rest → rest.length ≤ cs.length := by
  induction ps with
  | nil => intro cs rest h; simp [expect] at h; simp [h]
  | cons p ps ih =>
    intro cs rest h
    cases cs with
    | nil => simp [expect] at h
    | cons c cs =>
      simp only [expect] at h
      split at h
      · have := ih cs rest h
        simp only [List.length_cons]; omega
      · simp at h

theorem scanInt_length_lt {cs : List Char} {p : List Char × List Char}
    (h : scanInt cs = some p) : p.2.length < cs.length := by
  cases cs with
  | nil => simp [scanInt] at h
  | cons c cs =>
    simp only [scanInt] at h
    have := takeDigits_length_le cs
    split at h
    · simp at h; simp [← h]
    · split at h
      · simp at h; simp only [← h, List.length_cons]; omega
      · simp at h

theorem scanExpDigits_length_le {cs : List Char} {p : List Char × List Char}
    (h : scanExpDigits cs = some p) : p.2.length ≤ cs.length := by
  unfold scanExpDigits at h
  have := takeDigits_length_le cs
  split at h
  · simp at h
  · rename_i d ds rest heq
    simp at h
    rw [heq] at this
    simpa [← h] using this

theorem scanFrac_length_le {cs : List Char} {p : List Char × List Char}
    (h : scanFrac cs = some p) : p.2.length ≤ cs.length := by
  cases cs with
  | nil => simp [scanFrac] at h; simp [← h]
  | cons c cs =>
    simp only [scanFrac] at h
    have := takeDigits_length_le cs
    split at h
    · split at h
      · simp at h
      · rename_i d ds rest heq
        simp at h
        rw [heq] at this
        simp only [← h, List.length_cons]
        simp at this
        omega
    · simp at h; simp [← h]

theorem scanExp_length_le {cs : List Char} {p : List Char × List Char}
    (h : scanExp cs = some p) : p.2.length ≤ cs.length := by
  cases cs with
  | nil => simp [scanExp] at h; simp [← h]
  | cons c cs =>
    simp only [scanExp] at h
    split at h
    · cases cs with
      | nil => simp at h
      | cons s cs1 =>
        simp only at h
        split at h
        · cases hd : scanExpDigits cs1 with
          | none => simp [hd] at h
          | some q =>
            have := scanExpDigits_length_le hd
            simp [hd] at h
            simp only [← h, List.length_cons]; omega
        · cases hd : scanExpDigits (s :: cs1) with
          | none => simp [hd] at h
          | some q =>
            have := scanExpDigits_length_le hd
            simp [hd] at h
            simp only [← h, List.length_cons]
            simp only [List.length_cons] at this
            omega
    · simp at h; simp [← h]

theorem scanUnsigned_length_lt {cs : List Char} {p : List Char × List Char}
    (h : scanUnsigned cs = some p) : p.2.length < cs.length := by
  unfold scanUnsigned at h
  cases h1 : scanInt cs with
  | none => simp [h1] at h
  | some q1 =>
    obtain ⟨i, r1⟩ := q1
    simp only [h1] at h
    cases h2 : scanFrac r1 with
    | none => simp [h2] at h
    | some q2 =>
      obtain ⟨f, r2⟩ := q2
      simp only [h2] at h
      cases h3 : scanExp r2 with
      | none => simp [h3] at h
      | some q3 =>
        obtain ⟨e, r3⟩ := q3
        simp only [h3] at h
        have a1 := scanInt_length_lt h1
        have a2 := scanFrac_length_le h2
        have a3 := scanExp_length_le h3
        simp at h
        simp only [← h]
        simp only at a1 a2 a3
        omega

theorem scanNumber_length_lt {cs : List Char} {p : List Char × List Char}
    (h : scanNumber cs = some p) : p.2.length < cs.length := by
  cases cs with
  | nil => simp [scanNumber] at h
  | cons c cs =>
    simp only [scanNumber] at h
    split at h
    · cases hu : scanUnsigned cs with
      | none => simp [hu] at h
      | some q =>
        have := scanUnsigned_length_lt hu
        simp [hu] at h
        simp only [← h, List.length_cons]; omega
    · exact scanUnsigned_length_lt h

theorem parseElements_consumes (pv : List Char → Scan JSON) (L : Nat)
    (hpv : ∀ cs, cs.length < L → (pv cs).Consumes cs.length) :
    ∀ (k : Nat) (cs : List Char), cs.length < k → cs.length < L →
      (parseElements pv k cs).Consumes cs.length := by
  intro k
  induction k with
  | zero => intro cs hk; omega
  | succ k ih =>
    intro cs hk hL
    have h1 := skipSpace_length_le cs
    have h2 := hpv (skipSpace cs) (by omega)
    unfold parseElements
    cases hr : pv (skipSpace cs) with
    | malformed => trivial
    | outOfFuel => rw [hr] at h2; exact h2
    | ok v rest =>
      rw [hr] at h2
      have h3 := skipSpace_length_le rest
      have h2a : rest.length < (skipSpace cs).length := h2
      simp only
      cases hs : skipSpace rest with
      | nil => trivial
      | cons c rest1 =>
        rw [hs] at h3
        simp only [List.length_cons] at h3
        simp only
        split
        · exact ((ih rest1 (by omega) (by omega)).mono (by omega)).map _
        · split
          · show rest1.length < cs.length
            omega
          · trivial

theorem parseMembers_consumes (pv : List Char → Scan JSON) (L : Nat)
    (hpv : ∀ cs, cs.length < L → (pv cs).Consumes cs.length) :
    ∀ (k : Nat) (cs : List Char), cs.length < k → cs.length < L →
      (parseMembers pv k cs).Consumes cs.length := by
  intro k
  induction k with
  | zero => intro cs hk; omega
  | succ k ih =>
    intro cs hk hL
    have h1 := skipSpace_length_le cs
    unfold parseMembers
    cases hs0 : skipSpace cs with
    | nil => trivial
    | cons q cs1 =>
      rw [hs0] at h1
      simp only [List.length_cons] at h1
      simp only
      split
      · cases hq : scanQuoted cs1 with
        | none => trivial
        | some p =>
          obtain ⟨key, cs2⟩ := p
          have h2 : cs2.length < cs1.length := scanQuoted_length_lt hq
          have h3 := skipSpace_length_le cs2
          simp only
          cases hs2 : skipSpace cs2 with
          | nil => trivial
          | cons colon cs3 =>
            rw [hs2] at h3
            simp only [List.length_cons] at h3
            simp only
            split
            · have h4 := skipSpace_length_le cs3
              have h5 := hpv (skipSpace cs3) (by omega)
              cases hr : pv (skipSpace cs3) with
              | malformed => trivial
              | outOfFuel => rw [hr] at h5; exact h5
              | ok v rest =>
                rw [hr] at h5
                have h5a : rest.length < (skipSpace cs3).length := h5
                have h6 := skipSpace_length_le rest
                simp only
                cases hs : skipSpace rest with
                | nil => trivial
                | cons c rest1 =>
                  rw [hs] at h6
                  simp only [List.length_cons] at h6
                  simp only
                  split
                  · exact ((ih rest1 (by omega) (by omega)).mono (by omega)).map _
                  · split
                    · show rest1.length < cs.length
                      omega
                    · trivial
            · trivial
      · trivial

theorem dropOne_length_le (cs : List Char) : (dropOne cs).length ≤ cs.length := by
  have := skipSpace_length_le cs
  unfold dropOne
  simp only [List.length_tail]
  omega

theorem expect_consumes (ps cs : List Char) (c : Char) (v : JSON) :
    (Scan.ofOption ((expect ps cs).map (fun r => (v, r)))).Consumes (c :: cs).length := by
  apply Scan.consumes_ofOption
  intro p hp
  cases hq : expect ps cs with
  | none => simp [hq] at hp
  | some q =>
    have := expect_length_le _ _ _ hq
    simp [hq] at hp
    simp only [← hp, List.length_cons]; omega

theorem parseValue_consumes : ∀ (n depth : Nat) (cs : List Char), cs.length < n →
    (parseValue n depth cs).Consumes cs.length := by
  intro n
  induction n with
  | zero => intro depth cs h; omega
  | succ n ih =>
    intro depth cs h
    cases cs with
    | nil => trivial
    | cons c cs =>
      simp only [List.length_cons] at h
      have hn : cs.length < n := by omega
      simp only [parseValue]
      split
      · split
        · trivial
        · split
          · have := dropOne_length_le cs
            show (dropOne cs).length < (c :: cs).length
            simp only [List.length_cons]; omega
          · exact ((parseMembers_consumes _ n (ih (depth + 1)) n cs hn hn).mono
              (by simp)).map _
      · split
        · split
          · trivial
          · split
            · have := dropOne_length_le cs
              show (dropOne cs).length < (c :: cs).length
              simp only [List.length_cons]; omega
            · exact ((parseElements_consumes _ n (ih (depth + 1)) n cs hn hn).mono
                (by simp)).map _
        · split
          · apply Scan.consumes_ofOption
            intro p hp
            cases hq : scanQuoted cs with
            | none => simp [hq] at hp
            | some q =>
              have := scanQuoted_length_lt hq
              simp [hq] at hp
              simp only [← hp, List.length_cons]; omega
          · split
            · exact expect_consumes _ _ _ _
            · split
              · exact expect_consumes _ _ _ _
              · split
                · exact expect_consumes _ _ _ _
                · apply Scan.consumes_ofOption
                  intro p hp
                  cases hq : scanNumber (c :: cs) with
                  | none => simp [hq] at hp
                  | some q =>
                    have := scanNumber_length_lt hq
                    simp [hq] at hp
                    simp only [← hp]
                    exact this

/-- The recursion budget of `scanBody` is never exhausted: a body the scan does
not accept violates the grammar. -/
theorem scanBody_ne_outOfFuel (body : String) : scanBody body ≠ .outOfFuel := by
  have h := parseValue_consumes ((skipSpace body.toList).length + 1) 0 (skipSpace body.toList)
    (Nat.lt_succ_self _)
  unfold scanBody
  cases hr : parseValue ((skipSpace body.toList).length + 1) 0 (skipSpace body.toList) with
  | malformed => simp
  | outOfFuel => rw [hr] at h; exact h.elim
  | ok v rest =>
    simp only
    split <;> simp


/-- A body is rejected by `parseJSON` exactly when the scan reports a grammar
violation. -/
theorem parseJSON_eq_none_iff (body : String) :
    parseJSON body = none ↔ scanBody body = .malformed := by
  have h := scanBody_ne_outOfFuel body
  unfold parseJSON
  cases hs : scanBody body with
  | ok v rest => simp
  | malformed => simp
  | outOfFuel => exact absurd hs h

/-- The grammar on sample texts: accepted values, escapes and surrogate pairs,
and rejected texts (leading zero, trailing comma, truncated literal, two
values, empty input, a control character in a string). -/
theorem parseJSON_samples :
    parseJSON " \x7b \x7d " = some (.object [])
    ∧ parseJSON "[1, 2.5e+3, -0, true, null, \"a\\u0041\\n\"]"
      = some (.array [.number "1", .number "2.5e+3", .number "-0", .bool true, .null,
                      .string "aA\n"])
    ∧ parseJSON "\"\\ud83d\\ude00\"" = some (.string (String.mk [Char.ofNat 0x1F600]))
    ∧ parseJSON "\"\\ud83d\"" = some (.string "\uFFFD")
    ∧ parseJSON "01" = none
    ∧ parseJSON "[1,]" = none
    ∧ parseJSON "nul" = none
    ∧ parseJSON "1 2" = none
    ∧ parseJSON "" = none
    ∧ parseJSON "\"a\nb\"" = none :=
  ⟨rfl, rfl, rfl, rfl, rfl, rfl, rfl, rfl, rfl, rfl⟩

/-- The decoder on sample bodies: keys are matched without regard to case, the
last duplicate wins, `null` leaves a field alone, other keys are skipped, and a
value of another JSON type is a type error. -/
theorem json_Unmarshal_samples :
    json_Unmarshal "\x7b\"NAME\":\"Alice\",\"x\":[1,\x7b\x7d]\x7d" { Name := "", Email := "" }
      = .ok { Name := "Alice", Email := "" }
    ∧ json_Unmarshal "\x7b\"name\":\"a\",\"name\":\"b\",\"email\":null\x7d" { Name := "", Email := "" }
      = .ok { Name := "b", Email := "" }
    ∧ json_Unmarshal "null" { Name := "", Email := "" } = .ok { Name := "", Email := "" }
    ∧ json_Unmarshal "[]" { Name := "", Email := "" } = .error .typeMismatch
    ∧ json_Unmarshal "\"name\"" { Name := "", Email := "" } = .error .typeMismatch
    ∧ json_Unmarshal "\x7b\"email\":true\x7d" { Name := "", Email := "" } = .error .typeMismatch
    ∧ json_Unmarshal "\x7b\"name\":" { Name := "", Email := "" } = .error .malformed :=
  ⟨rfl, rfl, rfl, rfl, rfl, rfl, rfl⟩

/-! Lemmas on the handlers -/

theorem createUserHandler_of_ok (s : List User) (body : String) (req : CreateUserRequest)
    (h : json_Unmarshal body { Name := "", Email := "" } = .ok req) :
    createUserHandler s (post body) =
      ({ status := 201, contentType := "application/json",
         body := .json (User.toJSON { ID := s.length + 1, Name := req.Name, Email := req.Email }) },
       s ++ [{ ID := s.length + 1, Name := req.Name, Email := req.Email }]) := by
  have hm : ¬ (post body).Method ≠ "POST" := by simp [post]
  unfold createUserHandler
  rw [if_neg hm]
  simp only [post, h]

theorem createUserHandler_of_error (s : List User) (body : String) (e : UnmarshalError)
    (h : json_Unmarshal body { Name := "", Email := "" } = .error e) :
    createUserHandler s (post body) = (http_Error "Error parsing JSON" 400, s) := by
  have hm : ¬ (post body).Method ≠ "POST" := by simp [post]
  unfold createUserHandler
  rw [if_neg hm]
  simp only [post, h]

theorem usersRoute_post (s : List User) (body : Option String) :
    usersRoute s { Method := "POST", Body := body }
      = createUserHandler s { Method := "POST", Body := body } := by
  have h1 : ¬ ("POST" = "GET") := by decide
  simp only [usersRoute, if_neg h1, if_true]

theorem usersRoute_get (s : List User) (body : Option String) :
    usersRoute s { Method := "GET", Body := body }
      = getUsersHandler s { Method := "GET", Body := body } := by
  simp only [usersRoute, if_true]

/-- Every response of `createUserHandler` either appends one record with status
201 or leaves the store alone with another status. -/
theorem createUserHandler_cases (s : List User) (r : Request) :
    ((createUserHandler s r).1.status = 201 ∧
      ∃ name email, (createUserHandler s r).2 = s ++ [{ ID := s.length + 1, Name := name, Email := email }])
    ∨ ((createUserHandler s r).1.status ≠ 201 ∧ (createUserHandler s r).2 = s) := by
  unfold createUserHandler
  split
  · right; exact ⟨by simp [http_Error], rfl⟩
  · cases r.Body with
    | none => right; exact ⟨by simp [http_Error], rfl⟩
    | some body =>
      simp only
      cases json_Unmarshal body { Name := "", Email := "" } with
      | error e => right; exact ⟨by simp [http_Error], rfl⟩
      | ok req => left; exact ⟨rfl, req.Name, req.Email, rfl⟩

theorem getUsersHandler_cases (s : List User) (r : Request) :
    (getUsersHandler s r).1.status ≠ 201 ∧ (getUsersHandler s r).2 = s := by
  unfold getUsersHandler
  split
  · exact ⟨by simp [http_Error], rfl⟩
  · exact ⟨by simp [http_Error], rfl⟩

theorem usersRoute_cases (s : List User) (r : Request) :
    ((usersRoute s r).1.status = 201 ∧
      ∃ name email, (usersRoute s r).2 = s ++ [{ ID := s.length + 1, Name := name, Email := email }])
    ∨ ((usersRoute s r).1.status ≠ 201 ∧ (usersRoute s r).2 = s) := by
  unfold usersRoute
  split
  · right; exact getUsersHandler_cases s r
  · split
    · exact createUserHandler_cases s r
    · right; exact ⟨by simp [http_Error], rfl⟩

/-! Sequential identifiers -/

theorem ids_append_next (s : List User) (name email : String)
    (h : s.map User.ID = List.range' 1 s.length) :
    (s ++ [User.mk (s.length + 1) name email]).map User.ID
      = List.range' 1 (s ++ [User.mk (s.length + 1) name email]).length := by
  simp only [List.map_append, List.map_cons, List.map_nil, List.length_append,
    List.length_singleton, h, List.range'_concat]
  simp [Nat.add_comm]

theorem usersRoute_ids (s : List User) (r : Request)
    (h : s.map User.ID = List.range' 1 s.length) :
    (usersRoute s r).2.map User.ID = List.range' 1 (usersRoute s r).2.length := by
  rcases usersRoute_cases s r with ⟨_, name, email, h2⟩ | ⟨_, h2⟩
  · rw [h2]; exact ids_append_next s name email h
  · rw [h2]; exact h

theorem serve_ids (reqs : List Request) : ∀ (s : List User),
    s.map User.ID = List.range' 1 s.length →
    (serve s reqs).map User.ID = List.range' 1 (serve s reqs).length := by
  induction reqs with
  | nil => intro s h; exact h
  | cons r reqs ih =>
    intro s h
    exact ih _ (usersRoute_ids s r h)

/-! Type errors of the decoder -/

theorem decodeMember_flag (st : CreateUserRequest × Bool) (m : String × JSON) :
    (decodeMember st m).2 = (st.2 || !memberAccepted m) := by
  obtain ⟨key, v⟩ := m
  unfold decodeMember memberAccepted
  by_cases h1 : equalFold key "name" = true
  · cases v <;> simp [h1, storeString, isStringOrNull]
  · by_cases h2 : equalFold key "email" = true
    · cases v <;> simp [h1, h2, storeString, isStringOrNull]
    · simp [h1, h2]

theorem foldl_decodeMember_flag (ms : List (String × JSON)) :
    ∀ st : CreateUserRequest × Bool,
      (ms.foldl decodeMember st).2 = (st.2 || !ms.all memberAccepted) := by
  induction ms with
  | nil => intro st; simp
  | cons m ms ih =>
    intro st
    rw [List.foldl_cons, ih, decodeMember_flag, List.all_cons, Bool.not_and, Bool.or_assoc]

theorem decodeValue_isOk (v : CreateUserRequest) (j : JSON) :
    (∃ req, decodeValue v j = .ok req) ↔ acceptedShape j = true := by
  cases j with
  | null => simp [decodeValue, acceptedShape]
  | object ms =>
    simp only [decodeValue, acceptedShape, foldl_decodeMember_flag, Bool.false_or]
    cases ms.all memberAccepted <;> simp
  | bool b => simp [decodeValue, acceptedShape]
  | number l => simp [decodeValue, acceptedShape]
  | string x => simp [decodeValue, acceptedShape]
  | array xs => simp [decodeValue, acceptedShape]

theorem decodeMember_name (st : CreateUserRequest × Bool) (m : String × JSON)
    (h : equalFold m.1 "name" = false) : (decodeMember st m).1.Name = st.1.Name := by
  unfold decodeMember
  rw [h]
  simp only [Bool.false_eq_true, if_false]
  split <;> rfl

theorem decodeMember_email (st : CreateUserRequest × Bool) (m : String × JSON)
    (h : equalFold m.1 "email" = false) : (decodeMember st m).1.Email = st.1.Email := by
  unfold decodeMember
  rw [h]
  simp only [Bool.false_eq_true, if_false]
  split <;> rfl

theorem foldl_decodeMember_name (ms : List (String × JSON)) :
    ∀ st : CreateUserRequest × Bool, (∀ m ∈ ms, equalFold m.1 "name" = false) →
      (ms.foldl decodeMember st).1.Name = st.1.Name := by
  induction ms with
  | nil => intro st _; rfl
  | cons m ms ih =>
    intro st h
    rw [List.foldl_cons, ih _ (fun x hx => h x (List.mem_cons_of_mem _ hx)),
      decodeMember_name st m (h m (List.mem_cons_self _ _))]

theorem foldl_decodeMember_email (ms : List (String × JSON)) :
    ∀ st : CreateUserRequest × Bool, (∀ m ∈ ms, equalFold m.1 "email" = false) →
      (ms.foldl decodeMember st).1.Email = st.1.Email := by
  induction ms with
  | nil => intro st _; rfl
  | cons m ms ih =>
    intro st h
    rw [List.foldl_cons, ih _ (fun x hx => h x (List.mem_cons_of_mem _ hx)),
      decodeMember_email st m (h m (List.mem_cons_self _ _))]

theorem decodeValue_object_ok (v req : CreateUserRequest) (ms : List (String × JSON))
    (h : decodeValue v (.object ms) = .ok req) :
    req = (ms.foldl decodeMember (v, false)).1 := by
  simp only [decodeValue] at h
  split at h
  · cases h
  · cases h; rfl

/-! The nesting limit -/

theorem parseElements_not_ok (pv : List Char → Scan JSON) (cs : List Char)
    (hpv : ∀ v rest, pv (skipSpace cs) ≠ .ok v rest) :
    ∀ (k : Nat) (vs : List JSON) (rest : List Char), parseElements pv k cs ≠ .ok vs rest := by
  intro k vs rest
  cases k with
  | zero => simp [parseElements]
  | succ k =>
    unfold parseElements
    cases hr : pv (skipSpace cs) with
    | ok v r => exact absurd hr (hpv v r)
    | malformed => simp
    | outOfFuel => simp

theorem Scan.map_ne_ok {α β : Type} (f : α → β) (r : Scan α)
    (h : ∀ v rest, r ≠ .ok v rest) : ∀ v rest, r.map f ≠ .ok v rest := by
  intro v rest
  cases r with
  | ok w r2 => exact absurd rfl (h w r2)
  | malformed => simp [Scan.map]
  | outOfFuel => simp [Scan.map]

/-- Arrays opened beyond the nesting limit are never accepted: if `k + 1`
opening brackets at depth `depth` exceed `maxNestingDepth`, no value is
scanned, whatever follows. -/
theorem parseValue_too_deep (k : Nat) : ∀ (n depth : Nat) (cs : List Char),
    maxNestingDepth < depth + (k + 1) →
    ∀ v rest, parseValue n depth (List.replicate (k + 1) (Char.ofNat 91) ++ cs) ≠ .ok v rest := by
  induction k with
  | zero =>
    intro n depth cs hd v rest
    cases n with
    | zero => simp [parseValue]
    | succ n =>
      have h1 : maxNestingDepth < depth + 1 := hd
      simp [List.replicate, parseValue, h1]
  | succ k ih =>
    intro n depth cs hd v rest
    cases n with
    | zero => simp [parseValue]
    | succ n =>
      by_cases h1 : maxNestingDepth < depth + 1
      · simp [List.replicate, parseValue, h1]
      · have hs : skipSpace (List.replicate (k + 1) (Char.ofNat 91) ++ cs)
            = List.replicate (k + 1) (Char.ofNat 91) ++ cs := by
          simp [List.replicate_succ, skipSpace, isSpace]
        have hstart : startsWithCode 93 (List.replicate (k + 1) (Char.ofNat 91) ++ cs) = false := by
          unfold startsWithCode
          rw [hs]
          simp [List.replicate_succ]
        have hrec := ih n (depth + 1) cs (by omega)
        have hel := parseElements_not_ok (parseValue n (depth + 1))
          (List.replicate (k + 1) (Char.ofNat 91) ++ cs) (by rw [hs]; exact hrec) n
        have hmap := Scan.map_ne_ok JSON.array _ (hel) v rest
        rw [List.replicate_succ, List.cons_append]
        simp only [parseValue]
        simpa [h1, hstart] using hmap

theorem skipSpace_cons_of_not_space (c : Char) (cs : List Char) (h : isSpace c = false) :
    skipSpace (c :: cs) = c :: cs := by
  simp [skipSpace, h]

/-- An object whose one member, of key `x`, holds a value that is never
scanned at depth 1 is itself never scanned. -/
theorem parseValue_member_not_ok (R : List Char) (hRs : skipSpace R = R)
    (hdeep : ∀ n v r, parseValue n 1 R ≠ .ok v r) :
    ∀ (n : Nat) v rest, parseValue n 0
      (Char.ofNat 123 :: Char.ofNat 34 :: Char.ofNat 120 :: Char.ofNat 34 :: Char.ofNat 58 :: R)
      ≠ .ok v rest := by
  have hq : scanQuoted (Char.ofNat 120 :: Char.ofNat 34 :: Char.ofNat 58 :: R)
      = some ("x", Char.ofNat 58 :: R) := by
    unfold scanQuoted
    rw [scanString.eq_def]
    simp only [Char.reduceToNat, Nat.reduceEqDiff, if_false, Nat.reduceLT]
    rw [scanString.eq_def]
    simp [consUnit, decodeUnits, decodeFrom]
  have hm : ∀ (n : Nat) ms rest, parseMembers (parseValue n 1) n
      (Char.ofNat 34 :: Char.ofNat 120 :: Char.ofNat 34 :: Char.ofNat 58 :: R)
      ≠ .ok ms rest := by
    intro n ms rest
    cases n with
    | zero => simp [parseMembers]
    | succ n =>
      unfold parseMembers
      rw [skipSpace_cons_of_not_space _ _ (by decide)]
      simp only [Char.reduceToNat, if_true, hq]
      rw [skipSpace_cons_of_not_space _ _ (by decide)]
      simp only [Char.reduceToNat, if_true, hRs]
      cases hr : parseValue (n + 1) 1 R with
      | ok v r => exact absurd hr (hdeep _ v r)
      | malformed => simp
      | outOfFuel => simp
  intro n v rest
  cases n with
  | zero => simp [parseValue]
  | succ n =>
    have hstart : startsWithCode 125 (Char.ofNat 34 :: Char.ofNat 120 :: Char.ofNat 34 ::
        Char.ofNat 58 :: R) = false := by
      unfold startsWithCode
      rw [skipSpace_cons_of_not_space _ _ (by decide)]
      rfl
    have hmap := Scan.map_ne_ok JSON.object _ (hm n) v rest
    simp only [parseValue]
    simpa [hstart, maxNestingDepth] using hmap

theorem skipSpace_deep (cs : List Char) :
    skipSpace (List.replicate (9999 + 1) (Char.ofNat 91) ++ cs)
      = List.replicate (9999 + 1) (Char.ofNat 91) ++ cs := by
  rw [List.replicate_succ, List.cons_append]
  exact skipSpace_cons_of_not_space _ _ (by decide)

theorem parseValue_deep (cs : List Char) (n : Nat) (v : JSON) (r : List Char) :
    parseValue n 1 (List.replicate (9999 + 1) (Char.ofNat 91) ++ cs) ≠ .ok v r :=
  parseValue_too_deep 9999 n 1 cs (by unfold maxNestingDepth; omega) v r

theorem parseValue_deepBody (cs : List Char) (n : Nat) (v : JSON) (r : List Char) :
    parseValue n 0 (deepBody cs).toList ≠ .ok v r :=
  parseValue_member_not_ok _ (skipSpace_deep cs) (parseValue_deep cs) n v r

theorem skipSpace_deepBody (cs : List Char) :
    skipSpace (deepBody cs).toList = (deepBody cs).toList :=
  skipSpace_cons_of_not_space _ _ (by decide)

theorem parseJSON_eq_none_of_not_ok (body : String) (l : List Char)
    (hs : skipSpace body.toList = l) (h : ∀ n v r, parseValue n 0 l ≠ .ok v r) :
    parseJSON body = none := by
  unfold parseJSON scanBody
  rw [hs]
  cases hr : parseValue (l.length + 1) 0 l with
  | ok v r => exact absurd hr (h _ v r)
  | malformed => rfl
  | outOfFuel => rfl

theorem parseJSON_deepBody (cs : List Char) : parseJSON (deepBody cs) = none :=
  parseJSON_eq_none_of_not_ok (deepBody cs) _ (skipSpace_deepBody cs) (parseValue_deepBody cs)

theorem createUserHandler_of_parse_none (s : List User) (body : String)
    (h : parseJSON body = none) :
    createUserHandler s (post body) =
      ({ status := 400, contentType := "text/plain; charset=utf-8",
         body := .text "Error parsing JSON\n" }, s) := by
  have hu : json_Unmarshal body { Name := "", Email := "" } = .error .malformed := by
    simp only [json_Unmarshal, h]
  exact createUserHandler_of_error s body _ hu

/-- A body nested deeper than the limit is refused like a grammar violation,
also where the deep value sits under a key that names no field. -/
theorem createUserHandler_deepBody (s : List User) (cs : List Char) :
    createUserHandler s (post (deepBody cs)) =
      ({ status := 400, contentType := "text/plain; charset=utf-8",
         body := .text "Error parsing JSON\n" }, s) :=
  createUserHandler_of_parse_none s (deepBody cs) (parseJSON_deepBody cs)

/-! The claims -/

/-- C1: for every store `s` and every POST body that `json.Unmarshal` decodes to
a creation request `req`, `createUserHandler` answers 201 with the JSON object
of the user `(len(s) + 1, req.Name, req.Email)`, the store afterwards is `s`
with that one user appended at the end, and the `/users` route sends the
request to this handler. -/
theorem createUserHandler_success (s : List User) (body : String) (req : CreateUserRequest)
    (h : json_Unmarshal body { Name := "", Email := "" } = .ok req) :
    createUserHandler s (post body) =
      ({ status := 201, contentType := "application/json",
         body := .json (.object [("id", .number (Nat.repr (s.length + 1))),
                                 ("name", .string req.Name), ("email", .string req.Email)]) },
       s ++ [{ ID := s.length + 1, Name := req.Name, Email := req.Email }])
    ∧ usersRoute s (post body) = createUserHandler s (post body) :=
  ⟨createUserHandler_of_ok s body req h, usersRoute_post s (some body)⟩

/-- Witness of C1: on the fresh store the Alice body decodes, the response is
201 with the object of user 3, whose text form is the one the specification
gives, and the store becomes the two seeds followed by Alice. -/
theorem createUserHandler_success_alice :
    json_Unmarshal "\x7b\"name\":\"Alice\",\"email\":\"alice@x.com\"\x7d" { Name := "", Email := "" }
      = .ok { Name := "Alice", Email := "alice@x.com" }
    ∧ createUserHandler users (post "\x7b\"name\":\"Alice\",\"email\":\"alice@x.com\"\x7d") =
      ({ status := 201, contentType := "application/json",
         body := .json (.object [("id", .number "3"), ("name", .string "Alice"),
                                 ("email", .string "alice@x.com")]) },
       [{ ID := 1, Name := "John Doe", Email := "john@example.com" },
        { ID := 2, Name := "Jane Smith", Email := "jane@example.com" },
        { ID := 3, Name := "Alice", Email := "alice@x.com" }])
    ∧ parseJSON "\x7b\"id\":3,\"name\":\"Alice\",\"email\":\"alice@x.com\"\x7d"
      = some (.object [("id", .number "3"), ("name", .string "Alice"),
                       ("email", .string "alice@x.com")]) :=
  ⟨rfl,
   (createUserHandler_success users "\x7b\"name\":\"Alice\",\"email\":\"alice@x.com\"\x7d"
      { Name := "Alice", Email := "alice@x.com" } rfl).1,
   rfl⟩

/-- C2: in every store reached from the seeded store by serving any finite
sequence of requests one after the other, the record at 1-based position `i`
has id `i`; hence the ids are strictly increasing in insertion order and
pairwise distinct. -/
theorem serve_ids_sequential (reqs : List Request) :
    (serve users reqs).map User.ID = List.range' 1 (serve users reqs).length
    ∧ (∀ (i : Nat) (u : User), (serve users reqs)[i]? = some u → u.ID = i + 1)
    ∧ ((serve users reqs).map User.ID).Pairwise (fun a b => a < b)
    ∧ ((serve users reqs).map User.ID).Nodup := by
  have h := serve_ids reqs users rfl
  refine ⟨h, ?_, ?_, ?_⟩
  · intro i u hu
    have hi : i < (serve users reqs).length := by
      rcases Nat.lt_or_ge i (serve users reqs).length with hlt | hge
      · exact hlt
      · rw [List.getElem?_eq_none hge] at hu; simp at hu
    have h1 : ((serve users reqs).map User.ID)[i]? = some u.ID := by
      rw [List.getElem?_map, hu]; rfl
    rw [h, List.getElem?_range' 1 1 hi] at h1
    simp at h1
    omega
  · rw [h]; exact List.pairwise_lt_range' 1 _
  · rw [h]; exact List.nodup_range' 1 _

/-- C3: for every store `s` and every POST body that is not a well-formed JSON
text, `createUserHandler` answers 400 with the message "Error parsing JSON" and
the store afterwards is `s`. -/
theorem createUserHandler_malformed (s : List User) (body : String)
    (h : parseJSON body = none) :
    createUserHandler s (post body) =
      ({ status := 400, contentType := "text/plain; charset=utf-8",
         body := .text "Error parsing JSON\n" }, s)
    ∧ (createUserHandler s (post body)).2.length = s.length := by
  have hu : json_Unmarshal body { Name := "", Email := "" } = .error .malformed := by
    simp only [json_Unmarshal, h]
  have h1 := createUserHandler_of_error s body _ hu
  exact ⟨h1, by rw [h1]⟩

/-- Witness of C3: the body `not-json` on the fresh store. -/
theorem createUserHandler_malformed_not_json :
    parseJSON "not-json" = none
    ∧ createUserHandler users (post "not-json") =
      ({ status := 400, contentType := "text/plain; charset=utf-8",
         body := .text "Error parsing JSON\n" }, users)
    ∧ (createUserHandler users (post "not-json")).2.length = 2 :=
  ⟨rfl, (createUserHandler_malformed users "not-json" rfl).1,
   (createUserHandler_malformed users "not-json" rfl).2⟩

/-- C4: on the `/users` route a method that is neither GET nor POST is answered
405 "Method not allowed" with the store unchanged; a GET goes to
`getUsersHandler` and a POST to `createUserHandler`. -/
theorem usersRoute_dispatch (s : List User) (method : String) (body : Option String)
    (hget : method ≠ "GET") (hpost : method ≠ "POST") :
    usersRoute s { Method := method, Body := body } =
      ({ status := 405, contentType := "text/plain; charset=utf-8",
         body := .text "Method not allowed\n" }, s)
    ∧ usersRoute s { Method := "GET", Body := body }
        = getUsersHandler s { Method := "GET", Body := body }
    ∧ usersRoute s { Method := "POST", Body := body }
        = createUserHandler s { Method := "POST", Body := body } := by
  refine ⟨?_, usersRoute_get s body, usersRoute_post s body⟩
  simp only [usersRoute, if_neg hget, if_neg hpost]
  rfl

/-- Witness of C4: a DELETE on the fresh store. -/
theorem usersRoute_dispatch_delete :
    usersRoute users { Method := "DELETE", Body := some "" } =
      ({ status := 405, contentType := "text/plain; charset=utf-8",
         body := .text "Method not allowed\n" }, users) :=
  (usersRoute_dispatch users "DELETE" (some "") (by decide) (by decide)).1

/-- C5: for every store `s` a GET handled by `getUsersHandler` answers 200 with
the JSON array of the records of `s`, one element per record at the same
position, and the store afterwards is `s`. -/
theorem getUsersHandler_lists (s : List User) (body : Option String) :
    getUsersHandler s { Method := "GET", Body := body } =
      ({ status := 200, contentType := "application/json",
         body := .json (.array (s.map User.toJSON)) }, s)
    ∧ (s.map User.toJSON).length = s.length
    ∧ (∀ i : Nat, (s.map User.toJSON)[i]? = (s[i]?).map
        (fun u => JSON.object [("id", .number (Nat.repr u.ID)), ("name", .string u.Name),
                               ("email", .string u.Email)])) := by
  refine ⟨?_, List.length_map _ _, ?_⟩
  · simp only [getUsersHandler, ne_eq, not_true_eq_false, if_false]
  · intro i
    rw [List.getElem?_map]
    rfl

/-- C6 fails as stated: the body `{"name":1}` is well-formed JSON, yet
`createUserHandler` answers 400 "Error parsing JSON" and appends nothing,
because a number does not decode into the Go `string` field. -/
theorem createUserHandler_rejects_number_name :
    parseJSON "\x7b\"name\":1\x7d" = some (.object [("name", .number "1")])
    ∧ createUserHandler users (post "\x7b\"name\":1\x7d") =
      ({ status := 400, contentType := "text/plain; charset=utf-8",
         body := .text "Error parsing JSON\n" }, users)
    ∧ (createUserHandler users (post "\x7b\"name\":1\x7d")).1.status ≠ 201 :=
  ⟨rfl, rfl, by decide⟩

/-- C6 amended: for every store and every POST body that is well-formed JSON
with arrays and objects nested at most 10000 deep (what `parseJSON` accepts,
the nesting limit being that of the decoder), with value `v`,
`createUserHandler` answers 201 and appends one record when `v` is `null` or an
object in which every member whose key is `name` or `email` up to letter case
has a string or `null` value (no field need be present, members with other keys
are free), and answers 400 "Error parsing JSON" with the store unchanged
otherwise. -/
theorem createUserHandler_accepts_iff (s : List User) (body : String) (v : JSON)
    (h : parseJSON body = some v) :
    (acceptedShape v = true →
      ∃ req : CreateUserRequest,
        createUserHandler s (post body) =
          ({ status := 201, contentType := "application/json",
             body := .json (User.toJSON
               { ID := s.length + 1, Name := req.Name, Email := req.Email }) },
           s ++ [{ ID := s.length + 1, Name := req.Name, Email := req.Email }]))
    ∧ (acceptedShape v = false →
        createUserHandler s (post body) =
          ({ status := 400, contentType := "text/plain; charset=utf-8",
             body := .text "Error parsing JSON\n" }, s)) := by
  have hu : json_Unmarshal body { Name := "", Email := "" }
      = decodeValue { Name := "", Email := "" } v := by
    simp only [json_Unmarshal, h]
  constructor
  · intro ha
    obtain ⟨req, hreq⟩ := (decodeValue_isOk { Name := "", Email := "" } v).2 ha
    exact ⟨req, createUserHandler_of_ok s body req (hu.trans hreq)⟩
  · intro ha
    cases hd : decodeValue { Name := "", Email := "" } v with
    | error e => exact createUserHandler_of_error s body e (hu.trans hd)
    | ok req =>
      have := (decodeValue_isOk { Name := "", Email := "" } v).1 ⟨req, hd⟩
      rw [ha] at this
      cases this

/-- Witness of amended C6: a body with a name, no email and a member of another
key holding an array is accepted on the fresh store. -/
theorem createUserHandler_accepts_iff_bob :
    parseJSON "\x7b\"Name\":\"Bob\",\"age\":[7]\x7d"
      = some (.object [("Name", .string "Bob"), ("age", .array [.number "7"])])
    ∧ ∃ req : CreateUserRequest,
        createUserHandler users (post "\x7b\"Name\":\"Bob\",\"age\":[7]\x7d") =
          ({ status := 201, contentType := "application/json",
             body := .json (User.toJSON
               { ID := users.length + 1, Name := req.Name, Email := req.Email }) },
           users ++ [{ ID := users.length + 1, Name := req.Name, Email := req.Email }]) :=
  ⟨rfl, (createUserHandler_accepts_iff users "\x7b\"Name\":\"Bob\",\"age\":[7]\x7d" _ rfl).1 rfl⟩

/-- C7: for every store `s` and every body that decodes, two successive
`createUserHandler` calls with that same body append two records: the store
grows by exactly two, both answers are 201, and the returned ids `len(s) + 1`
and `len(s) + 2` differ. -/
theorem createUserHandler_twice (s : List User) (body : String) (req : CreateUserRequest)
    (h : json_Unmarshal body { Name := "", Email := "" } = .ok req) :
    (createUserHandler (createUserHandler s (post body)).2 (post body)).2 =
      s ++ [{ ID := s.length + 1, Name := req.Name, Email := req.Email },
            { ID := s.length + 2, Name := req.Name, Email := req.Email }]
    ∧ (createUserHandler (createUserHandler s (post body)).2 (post body)).2.length
      = s.length + 2
    ∧ (createUserHandler s (post body)).1 =
      { status := 201, contentType := "application/json",
        body := .json (User.toJSON { ID := s.length + 1, Name := req.Name, Email := req.Email }) }
    ∧ (createUserHandler (createUserHandler s (post body)).2 (post body)).1 =
      { status := 201, contentType := "application/json",
        body := .json (User.toJSON { ID := s.length + 2, Name := req.Name, Email := req.Email }) }
    ∧ s.length + 1 ≠ s.length + 2 := by
  have h1 := createUserHandler_of_ok s body req h
  have h2 := createUserHandler_of_ok
    (s ++ [{ ID := s.length + 1, Name := req.Name, Email := req.Email }]) body req h
  simp only [List.length_append, List.length_singleton] at h2
  have e1 : (createUserHandler s (post body)).2
      = s ++ [{ ID := s.length + 1, Name := req.Name, Email := req.Email }] := by rw [h1]
  refine ⟨?_, ?_, by rw [h1], by rw [e1, h2], by omega⟩
  · rw [e1, h2]; simp
  · rw [e1, h2]; simp

/-- Witness of C7: after the Alice creation on the fresh store, two identical
creation calls return ids 4 and 5 and leave five records. -/
theorem createUserHandler_twice_after_alice :
    (createUserHandler
      (createUserHandler
        (createUserHandler users (post "\x7b\"name\":\"Alice\",\"email\":\"alice@x.com\"\x7d")).2
        (post "\x7b\"name\":\"Bob\",\"email\":\"bob@x.com\"\x7d")).2
      (post "\x7b\"name\":\"Bob\",\"email\":\"bob@x.com\"\x7d")).2 =
      [{ ID := 1, Name := "John Doe", Email := "john@example.com" },
       { ID := 2, Name := "Jane Smith", Email := "jane@example.com" },
       { ID := 3, Name := "Alice", Email := "alice@x.com" },
       { ID := 4, Name := "Bob", Email := "bob@x.com" },
       { ID := 5, Name := "Bob", Email := "bob@x.com" }]
    ∧ (createUserHandler
        (createUserHandler users (post "\x7b\"name\":\"Alice\",\"email\":\"alice@x.com\"\x7d")).2
        (post "\x7b\"name\":\"Bob\",\"email\":\"bob@x.com\"\x7d")).1 =
      { status := 201, contentType := "application/json",
        body := .json (.object [("id", .number "4"), ("name", .string "Bob"),
                                ("email", .string "bob@x.com")]) }
    ∧ (createUserHandler
        (createUserHandler
          (createUserHandler users (post "\x7b\"name\":\"Alice\",\"email\":\"alice@x.com\"\x7d")).2
          (post "\x7b\"name\":\"Bob\",\"email\":\"bob@x.com\"\x7d")).2
        (post "\x7b\"name\":\"Bob\",\"email\":\"bob@x.com\"\x7d")).1 =
      { status := 201, contentType := "application/json",
        body := .json (.object [("id", .number "5"), ("name", .string "Bob"),
                                ("email", .string "bob@x.com")]) } :=
  ⟨(createUserHandler_twice
      (createUserHandler users (post "\x7b\"name\":\"Alice\",\"email\":\"alice@x.com\"\x7d")).2
      "\x7b\"name\":\"Bob\",\"email\":\"bob@x.com\"\x7d" { Name := "Bob", Email := "bob@x.com" } rfl).1,
   (createUserHandler_twice
      (createUserHandler users (post "\x7b\"name\":\"Alice\",\"email\":\"alice@x.com\"\x7d")).2
      "\x7b\"name\":\"Bob\",\"email\":\"bob@x.com\"\x7d" { Name := "Bob", Email := "bob@x.com" } rfl).2.2.1,
   (createUserHandler_twice
      (createUserHandler users (post "\x7b\"name\":\"Alice\",\"email\":\"alice@x.com\"\x7d")).2
      "\x7b\"name\":\"Bob\",\"email\":\"bob@x.com\"\x7d" { Name := "Bob", Email := "bob@x.com" } rfl).2.2.2.1⟩

/-- C8: for every store `s` a POST with body `{}` succeeds: `createUserHandler`
answers 201 with the record `(len(s) + 1, "", "")` and appends it; and for any
object body that decodes, a field that no member names decodes to the empty
string. -/
theorem createUserHandler_empty_object (s : List User) :
    createUserHandler s (post "\x7b\x7d") =
      ({ status := 201, contentType := "application/json",
         body := .json (.object [("id", .number (Nat.repr (s.length + 1))),
                                 ("name", .string ""), ("email", .string "")]) },
       s ++ [{ ID := s.length + 1, Name := "", Email := "" }])
    ∧ (∀ (body : String) (ms : List (String × JSON)) (req : CreateUserRequest),
        parseJSON body = some (.object ms) →
        json_Unmarshal body { Name := "", Email := "" } = .ok req →
          ((∀ m ∈ ms, equalFold m.1 "name" = false) → req.Name = "")
          ∧ ((∀ m ∈ ms, equalFold m.1 "email" = false) → req.Email = "")) := by
  refine ⟨createUserHandler_of_ok s "\x7b\x7d" { Name := "", Email := "" } rfl, ?_⟩
  intro body ms req hp hu
  have hd : decodeValue { Name := "", Email := "" } (.object ms) = .ok req := by
    simpa only [json_Unmarshal, hp] using hu
  have hreq := decodeValue_object_ok _ _ _ hd
  constructor
  · intro hn
    rw [hreq, foldl_decodeMember_name ms _ hn]
  · intro he
    rw [hreq, foldl_decodeMember_email ms _ he]

/-- C9: the store is append-only: for every store `s` and every request
handled through the `/users` route, `s` is an initial segment of the store
afterwards, the store has exactly one record more when the status is 201 and
is unchanged on every other status; the same holds of `createUserHandler`
called directly. -/
theorem usersRoute_append_only (s : List User) (r : Request) :
    (s <+: (usersRoute s r).2
      ∧ ((usersRoute s r).1.status = 201 → ∃ u, (usersRoute s r).2 = s ++ [u])
      ∧ ((usersRoute s r).1.status ≠ 201 → (usersRoute s r).2 = s))
    ∧ (s <+: (createUserHandler s r).2
      ∧ ((createUserHandler s r).1.status = 201 → ∃ u, (createUserHandler s r).2 = s ++ [u])
      ∧ ((createUserHandler s r).1.status ≠ 201 → (createUserHandler s r).2 = s)) := by
  constructor
  · rcases usersRoute_cases s r with ⟨h1, name, email, h2⟩ | ⟨h1, h2⟩
    · exact ⟨by rw [h2]; exact List.prefix_append _ _, fun _ => ⟨_, h2⟩, fun hne => absurd h1 hne⟩
    · exact ⟨by rw [h2], fun h => absurd h h1, fun _ => h2⟩
  · rcases createUserHandler_cases s r with ⟨h1, name, email, h2⟩ | ⟨h1, h2⟩
    · exact ⟨by rw [h2]; exact List.prefix_append _ _, fun _ => ⟨_, h2⟩, fun hne => absurd h1 hne⟩
    · exact ⟨by rw [h2], fun h => absurd h h1, fun _ => h2⟩

/-- C10: on a fresh instance a GET answers 200 with exactly two records, in
this order: id 1 "John Doe" "john@example.com", then id 2 "Jane Smith"
"jane@example.com". -/
theorem getUsersHandler_fresh (body : Option String) :
    (usersRoute users { Method := "GET", Body := body }).1 =
      { status := 200, contentType := "application/json",
        body := .json (.array
          [.object [("id", .number "1"), ("name", .string "John Doe"),
                    ("email", .string "john@example.com")],
           .object [("id", .number "2"), ("name", .string "Jane Smith"),
                    ("email", .string "jane@example.com")]]) }
    ∧ getUsersHandler users { Method := "GET", Body := body }
      = usersRoute users { Method := "GET", Body := body }
    ∧ serve users [] = users
    ∧ users.length = 2 :=
  ⟨rfl, rfl, rfl, rfl⟩

end JsonApi
